import Mathlib

/-!
Verification of the `tunnel_inserter` packet codec (`src/udp.rs`) and forwarding
engine (`src/forward.rs`).

Bytes are modelled as natural numbers (a well-formed byte is `< 256`); byte
buffers are `List Nat`.  Machine arithmetic is modelled with explicit `% 2^32`
(resp. `% 65536`) where the Rust code uses `u32` (resp. `u16`) values.
-/

/-- An IPv4 address, as in `std::net::Ipv4Addr`: four octets. -/
structure Ipv4Addr where
  a : Nat
  b : Nat
  c : Nat
  d : Nat
deriving DecidableEq, Repr

/-- The four octets of an address, as `Ipv4Addr::octets()` returns them. -/
def Ipv4Addr.octets (ip : Ipv4Addr) : List Nat :=
  [ip.a, ip.b, ip.c, ip.d]

/-- A well-formed address: each octet is a byte. -/
abbrev Ipv4Addr.wf (ip : Ipv4Addr) : Prop :=
  ip.a < 256 ∧ ip.b < 256 ∧ ip.c < 256 ∧ ip.d < 256

/-- Big-endian byte pair of a 16-bit value: `(x as u16).to_be_bytes()` in the
source.  The cast to `u16` is the `% 65536`. -/
def be16 (x : Nat) : List Nat :=
  [x % 65536 / 256, x % 256]

/-- The big-endian 16-bit word sum taken by the `while data.len() >= 2` loop of
`checksum` in `src/udp.rs`: consecutive byte pairs are added as words, and an
odd trailing byte counts as the high byte of a zero-padded word.  In the source
the accumulator is a `u32`; accumulating with wrap-around and reducing the final
total `% 2^32` agree, so the wrap is applied once in `checksum` below. -/
def wordSum : List Nat → Nat
  | b0 :: b1 :: rest => (b0 * 256 + b1) + wordSum rest
  | [b0] => b0 * 256
  | [] => 0

/-- One step of the carry-folding loop `while (sum >> 16) != 0`, iterated with
explicit fuel.  Each iteration strictly decreases `sum`, so fuel `sum` is always
enough (see `foldCarryAux_congr`). -/
def foldCarryAux : Nat → Nat → Nat
  | 0, sum => sum
  | fuel + 1, sum =>
    if sum / 65536 ≠ 0 then foldCarryAux fuel (sum % 65536 + sum / 65536) else sum

/-- The carry-folding loop of `checksum`: `while (sum >> 16) != 0 { sum = (sum &
0xFFFF) + (sum >> 16) }`.  `sum >> 16` is `sum / 65536` and `sum & 0xFFFF` is
`sum % 65536`. -/
def foldCarry (sum : Nat) : Nat :=
  foldCarryAux sum sum

/-- `checksum` from `src/udp.rs`: one's-complement internet checksum.  The final
`!(sum as u16)` is `65535 - (sum % 65536)` (bitwise NOT of a 16-bit value). -/
def checksum (data : List Nat) : Nat :=
  65535 - foldCarry (wordSum data % 4294967296) % 65536

/-- The 20-byte IPv4 header as `create_ipv4_udp_packet` first builds it, with
the checksum field still zero (bytes 10 and 11): version/IHL `0x45`, zero
DSCP/ECN, total length, zero identification, flags `0x4000`, TTL 64,
protocol 17, then source and destination addresses. -/
def ipv4_header_unchecksummed (total_length : Nat) (src_ip dst_ip : Ipv4Addr) : List Nat :=
  [0x45, 0x00] ++ be16 total_length ++ [0x00, 0x00, 0x40, 0x00, 64, 17, 0x00, 0x00]
    ++ src_ip.octets ++ dst_ip.octets

/-- The final 20-byte IPv4 header: the checksum of the zero-checksum header is
written into bytes 10 and 11 (`packet[10..12].copy_from_slice(&ip_checksum.to_be_bytes())`). -/
def ipv4_header (total_length : Nat) (src_ip dst_ip : Ipv4Addr) : List Nat :=
  [0x45, 0x00] ++ be16 total_length ++ [0x00, 0x00, 0x40, 0x00, 64, 17]
    ++ be16 (checksum (ipv4_header_unchecksummed total_length src_ip dst_ip))
    ++ src_ip.octets ++ dst_ip.octets

/-- `create_ipv4_udp_packet` from `src/udp.rs`: IPv4 header, then the 8-byte UDP
header (source port, destination port, UDP length, zero checksum — the
pseudo-header branch is under `if false` in the source), then the payload.
`total_length` and `udp_length` are `usize` in the source and are narrowed to
`u16` only when written into the packet, which `be16` models. -/
def create_ipv4_udp_packet (payload : List Nat) (src_ip dst_ip : Ipv4Addr)
    (src_port dst_port : Nat) : List Nat :=
  let udp_length := 8 + payload.length
  let total_length := 20 + udp_length
  ipv4_header total_length src_ip dst_ip
    ++ (be16 src_port ++ be16 dst_port ++ be16 udp_length ++ [0, 0])
    ++ payload

/-- Result of `parse_ipv4_udp_packet`.  `panic` marks the executions in which
the Rust function indexes or slices out of bounds (which panics) instead of
returning; `none` is a `None` return; `ok` carries the returned tuple. -/
inductive ParseResult where
  | panic : ParseResult
  | none : ParseResult
  | ok : Ipv4Addr → Ipv4Addr → Nat → Nat → List Nat → ParseResult
deriving DecidableEq, Repr

/-- The subslice `packet[i..j]`. -/
def subslice (l : List Nat) (i j : Nat) : List Nat :=
  (l.drop i).take (j - i)

/-- `parse_ipv4_udp_packet` from `src/udp.rs`, with every guard in source
order.  `packet[0] & 0x0F` is `packet.getD 0 0 % 16`; multi-byte reads
`u16::from_be_bytes` become `hi * 256 + lo`.  The two `.panic` guards mark the
out-of-bounds accesses the source performs without checking: the slice
`&packet[..ihl]` requires `ihl ≤ packet.len()`, and the six byte reads at
`udp_offset .. udp_offset + 5` happen before the UDP length check. -/
def parse_ipv4_udp_packet (packet : List Nat) : ParseResult :=
  if packet.length < 20 + 8 then ParseResult.none else
  let ihl := packet.getD 0 0 % 16 * 4
  if ihl < 20 then ParseResult.none else
  let total_length := packet.getD 2 0 * 256 + packet.getD 3 0
  if total_length ≠ packet.length then ParseResult.none else
  let protocol := packet.getD 9 0
  if protocol ≠ 17 then ParseResult.none else
  let src_ip : Ipv4Addr := ⟨packet.getD 12 0, packet.getD 13 0, packet.getD 14 0, packet.getD 15 0⟩
  let dst_ip : Ipv4Addr := ⟨packet.getD 16 0, packet.getD 17 0, packet.getD 18 0, packet.getD 19 0⟩
  if packet.length < ihl then ParseResult.panic else
  if checksum (packet.take ihl) ≠ 0 then ParseResult.none else
  let udp_offset := ihl
  if packet.length ≤ udp_offset + 5 then ParseResult.panic else
  let src_port := packet.getD udp_offset 0 * 256 + packet.getD (udp_offset + 1) 0
  let dst_port := packet.getD (udp_offset + 2) 0 * 256 + packet.getD (udp_offset + 3) 0
  let udp_length := packet.getD (udp_offset + 4) 0 * 256 + packet.getD (udp_offset + 5) 0
  if udp_length < 8 ∨ packet.length < udp_offset + udp_length then ParseResult.none else
  let udp_checksum := packet.getD (udp_offset + 6) 0 * 256 + packet.getD (udp_offset + 7) 0
  let payload := subslice packet (udp_offset + 8) (udp_offset + udp_length)
  if udp_checksum ≠ 0 then
    let pseudo_header := src_ip.octets ++ dst_ip.octets ++ [0, 17] ++ be16 udp_length
      ++ subslice packet udp_offset (udp_offset + udp_length)
    if udp_checksum ≠ 0 ∧ checksum pseudo_header ≠ 0 then ParseResult.none
    else ParseResult.ok src_ip dst_ip src_port dst_port payload
  else ParseResult.ok src_ip dst_ip src_port dst_port payload

/-! ### Arithmetic facts about the carry fold -/

theorem foldCarryAux_congr (f1 : Nat) : ∀ (f2 s : Nat), s ≤ f1 → s ≤ f2 →
    foldCarryAux f1 s = foldCarryAux f2 s := by
  induction f1 with
  | zero =>
    intro f2 s h1 _
    interval_cases s
    cases f2 with
    | zero => rfl
    | succ f => simp [foldCarryAux]
  | succ f1 ih =>
    intro f2 s h1 h2
    cases f2 with
    | zero =>
      interval_cases s
      simp [foldCarryAux]
    | succ f2 =>
      simp only [foldCarryAux]
      by_cases h : s / 65536 ≠ 0
      · rw [if_pos h, if_pos h]
        exact ih f2 (s % 65536 + s / 65536) (by omega) (by omega)
      · rw [if_neg h, if_neg h]

theorem foldCarry_step (s : Nat) (h : s / 65536 ≠ 0) :
    foldCarry s = foldCarry (s % 65536 + s / 65536) := by
  have hs : 1 ≤ s := by omega
  obtain ⟨f, rfl⟩ : ∃ f, s = f + 1 := ⟨s - 1, by omega⟩
  show foldCarryAux (f + 1) (f + 1) = _
  rw [foldCarryAux, if_pos h]
  exact foldCarryAux_congr f _ _ (by omega) (by omega)

theorem foldCarry_base (s : Nat) (h : s / 65536 = 0) : foldCarry s = s := by
  cases s with
  | zero => rfl
  | succ f =>
    show foldCarryAux (f + 1) (f + 1) = _
    rw [foldCarryAux, if_neg (by omega)]

theorem foldCarry_lt (s : Nat) : foldCarry s < 65536 := by
  induction s using Nat.strong_induction_on with
  | _ s ih =>
    by_cases h : s / 65536 = 0
    · rw [foldCarry_base s h]; omega
    · rw [foldCarry_step s h]; exact ih _ (by omega)

theorem foldCarry_mod (s : Nat) : foldCarry s % 65535 = s % 65535 := by
  induction s using Nat.strong_induction_on with
  | _ s ih =>
    by_cases h : s / 65536 = 0
    · rw [foldCarry_base s h]
    · rw [foldCarry_step s h, ih _ (by omega)]; omega

theorem foldCarry_pos (s : Nat) (h : 0 < s) : 0 < foldCarry s := by
  induction s using Nat.strong_induction_on with
  | _ s ih =>
    by_cases h0 : s / 65536 = 0
    · rw [foldCarry_base s h0]; omega
    · rw [foldCarry_step s h0]; exact ih _ (by omega) (by omega)

/-- Inserting the one's complement of the folded sum back into the sum makes the
fold come out as `0xFFFF`: the core identity behind checksum self-validation. -/
theorem foldCarry_complement (S : Nat) :
    foldCarry (S + (65535 - foldCarry S)) = 65535 := by
  by_cases h : S < 65536
  · rw [foldCarry_base S (by omega)]
    have h2 : S + (65535 - S) = 65535 := by omega
    rw [h2, foldCarry_base 65535 (by omega)]
  · have hF := foldCarry_lt S
    have hFm := foldCarry_mod S
    have h1 := foldCarry_lt (S + (65535 - foldCarry S))
    have h2 := foldCarry_mod (S + (65535 - foldCarry S))
    have h3 := foldCarry_pos (S + (65535 - foldCarry S)) (by omega)
    omega

theorem checksum_le (l : List Nat) : checksum l ≤ 65535 :=
  Nat.sub_le _ _

/-! ### Forwarding engine model (`src/forward.rs`)

The engine in `forward` is an I/O loop; its decision logic is embedded here.
Poll results are abstracted as, per file descriptor index, the two flags the
code inspects (`POLLIN`, `POLLHUP`); the per-channel I/O (recv, encode/send,
decode/dispatch) is abstracted to a trace of actions, and the outside-channel
dispatch (the `Ordering::Equal` arm) is modelled in full as `handleOutside`. -/

/-- `PortPair` from `src/forward.rs` (fields `local` and `remote`; `local` is a
reserved word in Lean, hence the `Port` suffix). -/
structure PortPair where
  localPort : Nat
  remotePort : Nat
deriving DecidableEq, Repr

/-- The revents flags of one polled file descriptor that `forward` inspects. -/
structure PollResult where
  pollin : Bool
  pollhup : Bool
deriving DecidableEq, Repr

/-- One observable step of a poll-loop cycle. -/
inductive EngineAction where
  | localToOutside : Nat → EngineAction
  | outsideToLocal : EngineAction
  | terminate : EngineAction
deriving DecidableEq, Repr

/-- The inverted port-pair index of `src/forward.rs`:
`port_pairs.iter().enumerate().map(|(j, pp)| (*pp, j)).collect::<HashMap<_, _>>()`
followed by `.get(&pp)`.  Collecting into a `HashMap` inserts the pairs in
iteration order and an insert with an equal key overwrites the earlier value, so
the lookup returns the index attached to the last occurrence of `pp`; the fold
mirrors exactly that. -/
def pp2idx (port_pairs : List PortPair) (pp : PortPair) : Option Nat :=
  port_pairs.enum.foldl (fun acc x => if x.2 = pp then some x.1 else acc) none

/-- Scan of the `for (j, pf) in poll_fds.iter().enumerate()` loop body, from
index `j` with the given fuel (the loop visits indices `0 .. n + 1`; fuel
`n + 2 - j` covers the rest).  `n` local sockets sit at indices `< n`, the
outside socket at `n`, the control pipe at `n + 1`.  Branches in source order:
skip unless `POLLIN | POLLHUP`; `break 'm` (terminate) when `j == n + 1`; skip
unless `POLLIN`; then the `match j.cmp(&n)` arms (`Greater` is unreachable and
does nothing).  Returns the action trace of the rest of the cycle and whether
the cycle ended in `break 'm`. -/
def forward_scan (n : Nat) (rev : Nat → PollResult) : Nat → Nat → List EngineAction × Bool
  | _, 0 => ([], false)
  | j, fuel + 1 =>
    if ¬((rev j).pollin || (rev j).pollhup) then forward_scan n rev (j + 1) fuel
    else if j = n + 1 then ([EngineAction.terminate], true)
    else if ¬(rev j).pollin then forward_scan n rev (j + 1) fuel
    else if j < n then
      let r := forward_scan n rev (j + 1) fuel
      (EngineAction.localToOutside j :: r.1, r.2)
    else if j = n then
      let r := forward_scan n rev (j + 1) fuel
      (EngineAction.outsideToLocal :: r.1, r.2)
    else forward_scan n rev (j + 1) fuel

/-- One full wake cycle of `forward`: the scan over all `n + 2` descriptors. -/
def forward_cycle (n : Nat) (rev : Nat → PollResult) : List EngineAction × Bool :=
  forward_scan n rev 0 (n + 2)

/-- The `'m: loop` of `forward`, with the poll results of cycle `i` given by
`revs i` and bounded by fuel: runs cycles until one ends in `break 'm`,
concatenating their action traces. -/
def forward_loop : Nat → Nat → (Nat → Nat → PollResult) → Nat → List EngineAction
  | 0, _, _, _ => []
  | fuel + 1, n, revs, i =>
    let c := forward_cycle n (revs i)
    if c.2 then c.1 else c.1 ++ forward_loop fuel n revs (i + 1)

/-- The observable outcome of the `Ordering::Equal` (outside socket) arm of
`forward` on one received datagram. -/
inductive OutsideEffect where
  | crash
  | invalid
  | srcMismatch
  | dstMismatch
  | noPortPair
  | sendLocal : Nat → List Nat → OutsideEffect
deriving DecidableEq, Repr

/-- The `Ordering::Equal` arm of `forward` (outside → local direction), lines
103–136 of `src/forward.rs`: decode the datagram; on decode failure log and
continue (`invalid`); otherwise reject a source address that differs from
`remote_addr` (`srcMismatch`) or a destination address that differs from
`local_addr` (`dstMismatch`); otherwise look up
`PortPair { local: dst_port, remote: src_port }` in the inverted index, a miss
being logged (`noPortPair`) and a hit sending the payload to the matching local
socket.  A `panic` from the parser aborts the process (`crash`). -/
def handleOutside (local_addr remote_addr : Ipv4Addr) (port_pairs : List PortPair)
    (dgram : List Nat) : OutsideEffect :=
  match parse_ipv4_udp_packet dgram with
  | ParseResult.panic => OutsideEffect.crash
  | ParseResult.none => OutsideEffect.invalid
  | ParseResult.ok src_ip dst_ip src_port dst_port data =>
    if src_ip ≠ remote_addr then OutsideEffect.srcMismatch
    else if dst_ip ≠ local_addr then OutsideEffect.dstMismatch
    else
      match pp2idx port_pairs ⟨dst_port, src_port⟩ with
      | none => OutsideEffect.noPortPair
      | some idx => OutsideEffect.sendLocal idx data

/-! ### The encoder's header checksum validates -/

/-- Expanding both headers to word sums: the checksummed header's word sum is
the zero-checksum header's word sum plus the checksum value (it sits on the
aligned word at bytes 10–11, which is zero in the unchecksummed header). -/
theorem wordSum_ipv4_header (t : Nat) (s d : Ipv4Addr) :
    wordSum (ipv4_header t s d) =
      wordSum (ipv4_header_unchecksummed t s d)
        + checksum (ipv4_header_unchecksummed t s d) := by
  have hc := checksum_le (ipv4_header_unchecksummed t s d)
  simp only [ipv4_header_unchecksummed, be16, Ipv4Addr.octets, List.cons_append,
    List.nil_append] at hc ⊢
  simp only [ipv4_header, ipv4_header_unchecksummed, be16, Ipv4Addr.octets,
    List.cons_append, List.nil_append, wordSum]
  omega

/-- The zero-checksum header's word sum is far below `2^32`, provided the
address octets are bytes (the other bytes are bounded by construction). -/
theorem wordSum_ipv4_header_unchecksummed_lt (t : Nat) (s d : Ipv4Addr)
    (hs : s.wf) (hd : d.wf) :
    wordSum (ipv4_header_unchecksummed t s d) + 65535 < 4294967296 := by
  obtain ⟨hs1, hs2, hs3, hs4⟩ := hs
  obtain ⟨hd1, hd2, hd3, hd4⟩ := hd
  have h1 : t % 65536 / 256 < 256 := by omega
  simp only [ipv4_header_unchecksummed, be16, Ipv4Addr.octets, List.cons_append,
    List.nil_append, wordSum]
  omega

/-- The checksum of the full 20-byte header, with the stored checksum field
included, folds to zero. -/
theorem ipv4_header_checksum_zero (t : Nat) (s d : Ipv4Addr) (hs : s.wf) (hd : d.wf) :
    checksum (ipv4_header t s d) = 0 := by
  have hb := wordSum_ipv4_header_unchecksummed_lt t s d hs hd
  have hpre : checksum (ipv4_header_unchecksummed t s d)
      = 65535 - foldCarry (wordSum (ipv4_header_unchecksummed t s d)) := by
    unfold checksum
    rw [Nat.mod_eq_of_lt (foldCarry_lt _),
      Nat.mod_eq_of_lt (by omega : wordSum (ipv4_header_unchecksummed t s d) < 4294967296)]
  unfold checksum
  rw [wordSum_ipv4_header, hpre]
  have hfc := foldCarry_lt (wordSum (ipv4_header_unchecksummed t s d))
  rw [Nat.mod_eq_of_lt (by omega :
    wordSum (ipv4_header_unchecksummed t s d)
      + (65535 - foldCarry (wordSum (ipv4_header_unchecksummed t s d))) < 4294967296)]
  rw [foldCarry_complement]

/-! ### Byte-level facts about `create_ipv4_udp_packet`

Each is definitional: the packet is an append of literal byte lists around the
payload, so fixed-index reads, `take`, and `drop` reduce. -/

theorem create_length (p : List Nat) (s d : Ipv4Addr) (sp dp : Nat) :
    (create_ipv4_udp_packet p s d sp dp).length = 28 + p.length := by
  simp [create_ipv4_udp_packet, ipv4_header, ipv4_header_unchecksummed, be16,
    Ipv4Addr.octets]
  omega

theorem create_getD0 (p : List Nat) (s d : Ipv4Addr) (sp dp : Nat) :
    (create_ipv4_udp_packet p s d sp dp).getD 0 0 = 0x45 := rfl

theorem create_getD2 (p : List Nat) (s d : Ipv4Addr) (sp dp : Nat) :
    (create_ipv4_udp_packet p s d sp dp).getD 2 0 = (20 + (8 + p.length)) % 65536 / 256 := rfl

theorem create_getD3 (p : List Nat) (s d : Ipv4Addr) (sp dp : Nat) :
    (create_ipv4_udp_packet p s d sp dp).getD 3 0 = (20 + (8 + p.length)) % 256 := rfl

theorem create_getD9 (p : List Nat) (s d : Ipv4Addr) (sp dp : Nat) :
    (create_ipv4_udp_packet p s d sp dp).getD 9 0 = 17 := rfl

theorem create_src_ip (p : List Nat) (s d : Ipv4Addr) (sp dp : Nat) :
    Ipv4Addr.mk ((create_ipv4_udp_packet p s d sp dp).getD 12 0)
      ((create_ipv4_udp_packet p s d sp dp).getD 13 0)
      ((create_ipv4_udp_packet p s d sp dp).getD 14 0)
      ((create_ipv4_udp_packet p s d sp dp).getD 15 0) = s := rfl

theorem create_dst_ip (p : List Nat) (s d : Ipv4Addr) (sp dp : Nat) :
    Ipv4Addr.mk ((create_ipv4_udp_packet p s d sp dp).getD 16 0)
      ((create_ipv4_udp_packet p s d sp dp).getD 17 0)
      ((create_ipv4_udp_packet p s d sp dp).getD 18 0)
      ((create_ipv4_udp_packet p s d sp dp).getD 19 0) = d := rfl

theorem create_getD20 (p : List Nat) (s d : Ipv4Addr) (sp dp : Nat) :
    (create_ipv4_udp_packet p s d sp dp).getD 20 0 = sp % 65536 / 256 := rfl

theorem create_getD21 (p : List Nat) (s d : Ipv4Addr) (sp dp : Nat) :
    (create_ipv4_udp_packet p s d sp dp).getD 21 0 = sp % 256 := rfl

theorem create_getD22 (p : List Nat) (s d : Ipv4Addr) (sp dp : Nat) :
    (create_ipv4_udp_packet p s d sp dp).getD 22 0 = dp % 65536 / 256 := rfl

theorem create_getD23 (p : List Nat) (s d : Ipv4Addr) (sp dp : Nat) :
    (create_ipv4_udp_packet p s d sp dp).getD 23 0 = dp % 256 := rfl

theorem create_getD24 (p : List Nat) (s d : Ipv4Addr) (sp dp : Nat) :
    (create_ipv4_udp_packet p s d sp dp).getD 24 0 = (8 + p.length) % 65536 / 256 := rfl

theorem create_getD25 (p : List Nat) (s d : Ipv4Addr) (sp dp : Nat) :
    (create_ipv4_udp_packet p s d sp dp).getD 25 0 = (8 + p.length) % 256 := rfl

theorem create_getD26 (p : List Nat) (s d : Ipv4Addr) (sp dp : Nat) :
    (create_ipv4_udp_packet p s d sp dp).getD 26 0 = 0 := rfl

theorem create_getD27 (p : List Nat) (s d : Ipv4Addr) (sp dp : Nat) :
    (create_ipv4_udp_packet p s d sp dp).getD 27 0 = 0 := rfl

theorem create_take20 (p : List Nat) (s d : Ipv4Addr) (sp dp : Nat) :
    (create_ipv4_udp_packet p s d sp dp).take 20 = ipv4_header (20 + (8 + p.length)) s d := rfl

theorem create_take28 (p : List Nat) (s d : Ipv4Addr) (sp dp : Nat) :
    (create_ipv4_udp_packet p s d sp dp).take 28 =
      ipv4_header (20 + (8 + p.length)) s d
        ++ (be16 sp ++ be16 dp ++ be16 (8 + p.length) ++ [0, 0]) := rfl

theorem create_drop28 (p : List Nat) (s d : Ipv4Addr) (sp dp : Nat) :
    (create_ipv4_udp_packet p s d sp dp).drop 28 = p := rfl

/-! ### Characterization of `parse_ipv4_udp_packet` past the header checks

With the length, IHL, total-length, protocol, header-checksum and UDP-length
checks all passing, parsing comes down to the UDP-checksum decision: reject
exactly when the declared UDP checksum is non-zero AND the recomputed
pseudo-header checksum is non-zero. -/

theorem parse_characterization (packet : List Nat) (ihl udp_length : Nat)
    (hlen : 28 ≤ packet.length)
    (hihl : packet.getD 0 0 % 16 * 4 = ihl)
    (h20 : 20 ≤ ihl)
    (htot : packet.getD 2 0 * 256 + packet.getD 3 0 = packet.length)
    (hproto : packet.getD 9 0 = 17)
    (hck : checksum (packet.take ihl) = 0)
    (hudp : packet.getD (ihl + 4) 0 * 256 + packet.getD (ihl + 5) 0 = udp_length)
    (h8 : 8 ≤ udp_length)
    (hfit : ihl + udp_length ≤ packet.length) :
    parse_ipv4_udp_packet packet =
      if packet.getD (ihl + 6) 0 * 256 + packet.getD (ihl + 7) 0 ≠ 0 ∧
          checksum (Ipv4Addr.octets ⟨packet.getD 12 0, packet.getD 13 0, packet.getD 14 0, packet.getD 15 0⟩
            ++ Ipv4Addr.octets ⟨packet.getD 16 0, packet.getD 17 0, packet.getD 18 0, packet.getD 19 0⟩
            ++ [0, 17] ++ be16 udp_length ++ subslice packet ihl (ihl + udp_length)) ≠ 0
      then ParseResult.none
      else ParseResult.ok
        ⟨packet.getD 12 0, packet.getD 13 0, packet.getD 14 0, packet.getD 15 0⟩
        ⟨packet.getD 16 0, packet.getD 17 0, packet.getD 18 0, packet.getD 19 0⟩
        (packet.getD ihl 0 * 256 + packet.getD (ihl + 1) 0)
        (packet.getD (ihl + 2) 0 * 256 + packet.getD (ihl + 3) 0)
        (subslice packet (ihl + 8) (ihl + udp_length)) := by
  simp only [parse_ipv4_udp_packet]
  rw [hihl, htot, hproto, hudp]
  rw [if_neg (by omega), if_neg (by omega), if_neg (by simp), if_neg (by simp),
    if_neg (by omega), if_neg (by rw [hck]; simp), if_neg (by omega), if_neg (by omega)]
  by_cases hu : packet.getD (ihl + 6) 0 * 256 + packet.getD (ihl + 7) 0 = 0
  · rw [if_neg (by omega), if_neg (by exact fun h => h.1 hu)]
  · rw [if_pos hu]

/-! ### Claim C5: the encoder's stored header checksum validates -/

/-- C5: for every payload, address pair and port pair, the one's-complement
checksum computed over the first 20 bytes of the packet produced by
`create_ipv4_udp_packet` (with the stored checksum field included) folds to
zero, i.e. `checksum` of those bytes is `0` — exactly the acceptance test the
decoder applies. -/
theorem encoded_header_checksum_folds_zero (payload : List Nat) (src_ip dst_ip : Ipv4Addr)
    (src_port dst_port : Nat) (hs : src_ip.wf) (hd : dst_ip.wf) :
    checksum ((create_ipv4_udp_packet payload src_ip dst_ip src_port dst_port).take 20) = 0 := by
  rw [create_take20]
  exact ipv4_header_checksum_zero _ _ _ hs hd

/-- Witness for C5 at a concrete packet. -/
theorem encoded_header_checksum_folds_zero_witness :
    checksum ((create_ipv4_udp_packet [1, 2, 3] ⟨172, 16, 5, 9⟩ ⟨8, 8, 8, 8⟩ 53 5353).take 20) = 0 :=
  encoded_header_checksum_folds_zero [1, 2, 3] ⟨172, 16, 5, 9⟩ ⟨8, 8, 8, 8⟩ 53 5353
    (by decide) (by decide)

/-! ### Claim C1: encode/decode round trip -/

/-- C1: decoding an encoded packet returns exactly the source address,
destination address, ports and payload that were encoded, for any payload of
length at most 1450, 16-bit ports, and well-formed addresses. -/
theorem encode_decode_roundtrip (payload : List Nat) (src_ip dst_ip : Ipv4Addr)
    (src_port dst_port : Nat) (hlen : payload.length ≤ 1450)
    (hsp : src_port < 65536) (hdp : dst_port < 65536)
    (hs : src_ip.wf) (hd : dst_ip.wf) :
    parse_ipv4_udp_packet (create_ipv4_udp_packet payload src_ip dst_ip src_port dst_port) =
      ParseResult.ok src_ip dst_ip src_port dst_port payload := by
  have hplen := create_length payload src_ip dst_ip src_port dst_port
  rw [parse_characterization (create_ipv4_udp_packet payload src_ip dst_ip src_port dst_port)
      20 (8 + payload.length)
      (by omega)
      (by rw [create_getD0])
      (by omega)
      (by rw [create_getD2, create_getD3, hplen]; omega)
      (create_getD9 payload src_ip dst_ip src_port dst_port)
      (by rw [create_take20]; exact ipv4_header_checksum_zero _ _ _ hs hd)
      (by show (create_ipv4_udp_packet payload src_ip dst_ip src_port dst_port).getD 24 0 * 256
            + (create_ipv4_udp_packet payload src_ip dst_ip src_port dst_port).getD 25 0
            = 8 + payload.length
          rw [create_getD24, create_getD25]; omega)
      (by omega)
      (by omega)]
  have h260 : (create_ipv4_udp_packet payload src_ip dst_ip src_port dst_port).getD (20 + 6) 0 * 256
      + (create_ipv4_udp_packet payload src_ip dst_ip src_port dst_port).getD (20 + 7) 0 = 0 := by
    rw [show (20 : Nat) + 6 = 26 from rfl, show (20 : Nat) + 7 = 27 from rfl,
      create_getD26, create_getD27]
  rw [if_neg (fun h => h.1 h260)]
  show ParseResult.ok _ _
      ((create_ipv4_udp_packet payload src_ip dst_ip src_port dst_port).getD 20 0 * 256
        + (create_ipv4_udp_packet payload src_ip dst_ip src_port dst_port).getD 21 0)
      ((create_ipv4_udp_packet payload src_ip dst_ip src_port dst_port).getD 22 0 * 256
        + (create_ipv4_udp_packet payload src_ip dst_ip src_port dst_port).getD 23 0)
      (subslice (create_ipv4_udp_packet payload src_ip dst_ip src_port dst_port) 28
        (20 + (8 + payload.length))) = _
  have hslice : subslice (create_ipv4_udp_packet payload src_ip dst_ip src_port dst_port) 28
      (20 + (8 + payload.length)) = payload := by
    unfold subslice
    rw [create_drop28]
    rw [show 20 + (8 + payload.length) - 28 = payload.length from by omega]
    exact List.take_length payload
  rw [hslice, create_src_ip, create_dst_ip, create_getD20, create_getD21, create_getD22,
    create_getD23]
  rw [show src_port % 65536 / 256 * 256 + src_port % 256 = src_port from by omega]
  rw [show dst_port % 65536 / 256 * 256 + dst_port % 256 = dst_port from by omega]

/-- Witness for C1 at a concrete payload, addresses and ports. -/
theorem encode_decode_roundtrip_witness :
    parse_ipv4_udp_packet (create_ipv4_udp_packet [72, 105] ⟨192, 168, 0, 1⟩ ⟨10, 0, 0, 7⟩ 1234 5678) =
      ParseResult.ok ⟨192, 168, 0, 1⟩ ⟨10, 0, 0, 7⟩ 1234 5678 [72, 105] :=
  encode_decode_roundtrip [72, 105] ⟨192, 168, 0, 1⟩ ⟨10, 0, 0, 7⟩ 1234 5678
    (by decide) (by decide) (by decide) (by decide) (by decide)

/-! ### Claim C4: UDP checksum verification -/

/-- C4: on an otherwise-valid buffer, the decoder computes the pseudo-header
checksum (source IP, destination IP, zero byte, protocol byte 17, UDP length,
then the UDP header and payload bytes) only when the declared UDP checksum is
non-zero, and rejects exactly when that computed value is also non-zero.
Consequently a non-zero declared checksum with computed value zero is still
accepted, and a zero declared checksum is accepted outright. -/
theorem udp_checksum_verification (packet : List Nat) (ihl udp_length : Nat)
    (hlen : 28 ≤ packet.length)
    (hihl : packet.getD 0 0 % 16 * 4 = ihl)
    (h20 : 20 ≤ ihl)
    (htot : packet.getD 2 0 * 256 + packet.getD 3 0 = packet.length)
    (hproto : packet.getD 9 0 = 17)
    (hck : checksum (packet.take ihl) = 0)
    (hudp : packet.getD (ihl + 4) 0 * 256 + packet.getD (ihl + 5) 0 = udp_length)
    (h8 : 8 ≤ udp_length)
    (hfit : ihl + udp_length ≤ packet.length) :
    parse_ipv4_udp_packet packet =
      if packet.getD (ihl + 6) 0 * 256 + packet.getD (ihl + 7) 0 ≠ 0 ∧
          checksum (Ipv4Addr.octets ⟨packet.getD 12 0, packet.getD 13 0, packet.getD 14 0, packet.getD 15 0⟩
            ++ Ipv4Addr.octets ⟨packet.getD 16 0, packet.getD 17 0, packet.getD 18 0, packet.getD 19 0⟩
            ++ [0, 17] ++ be16 udp_length ++ subslice packet ihl (ihl + udp_length)) ≠ 0
      then ParseResult.none
      else ParseResult.ok
        ⟨packet.getD 12 0, packet.getD 13 0, packet.getD 14 0, packet.getD 15 0⟩
        ⟨packet.getD 16 0, packet.getD 17 0, packet.getD 18 0, packet.getD 19 0⟩
        (packet.getD ihl 0 * 256 + packet.getD (ihl + 1) 0)
        (packet.getD (ihl + 2) 0 * 256 + packet.getD (ihl + 3) 0)
        (subslice packet (ihl + 8) (ihl + udp_length)) :=
  parse_characterization packet ihl udp_length hlen hihl h20 htot hproto hck hudp h8 hfit

/-- Witness for C4: a buffer identical to the repository's own test packet but
with the UDP checksum field set to the non-zero value `0x27A0`, chosen so that
the recomputed pseudo-header checksum folds to zero.  The declared value does
not need to be checked against anything: the packet is accepted. -/
theorem udp_checksum_verification_witness :
    parse_ipv4_udp_packet
      [0x45, 0x00, 0x00, 0x22, 0x00, 0x00, 0x40, 0x00, 0x40, 0x11, 0xB7, 0x15,
       192, 168, 1, 100, 192, 168, 1, 1,
       0x30, 0x39, 0x00, 0x50, 0x00, 0x0E, 0x27, 0xA0,
       72, 101, 108, 108, 111, 33] =
      ParseResult.ok ⟨192, 168, 1, 100⟩ ⟨192, 168, 1, 1⟩ 12345 80 [72, 101, 108, 108, 111, 33] := by
  rw [udp_checksum_verification
    [0x45, 0x00, 0x00, 0x22, 0x00, 0x00, 0x40, 0x00, 0x40, 0x11, 0xB7, 0x15,
     192, 168, 1, 100, 192, 168, 1, 1,
     0x30, 0x39, 0x00, 0x50, 0x00, 0x0E, 0x27, 0xA0,
     72, 101, 108, 108, 111, 33] 20 14
    (by decide) (by decide) (by decide) (by decide) (by decide) (by decide) (by decide)
    (by decide) (by decide)]
  decide

/-! ### Claim C3: totality of the decoder over arbitrary buffers -/

/-- C3 (code bug): the decoder is not total.  This 28-byte buffer declares an
IPv4 header length of 60 (`0x4F & 0x0F = 15`, times 4) while being only 28
bytes long; it passes the length, IHL, total-length and protocol checks, and
the source then evaluates `checksum(&packet[..60])`, an out-of-bounds slice
that panics, instead of returning `None`. -/
theorem parse_oob_header_len_panics :
    parse_ipv4_udp_packet
      [0x4F, 0, 0, 28, 0, 0, 0, 0, 0, 17, 0, 0, 0, 0,
       0, 0, 0, 0, 0, 0, 0, 0, 0, 0, 0, 0, 0, 0] =
      ParseResult.panic := by decide

/-! ### Claim C10: the UDP datagram need not span the whole IP payload -/

/-- C10: when the declared total length equals the buffer length and the
declared UDP length satisfies `8 ≤ udp_length < packet.length - ihl` (with all
other checks passing, including UDP-checksum acceptance), the decoder accepts
the buffer and returns as payload exactly the bytes from `ihl + 8` to
`ihl + udp_length`, silently ignoring the trailing bytes beyond that range. -/
theorem parse_ignores_trailing_bytes (packet : List Nat) (ihl udp_length : Nat)
    (hlen : 28 ≤ packet.length)
    (hihl : packet.getD 0 0 % 16 * 4 = ihl)
    (h20 : 20 ≤ ihl)
    (htot : packet.getD 2 0 * 256 + packet.getD 3 0 = packet.length)
    (hproto : packet.getD 9 0 = 17)
    (hck : checksum (packet.take ihl) = 0)
    (hudp : packet.getD (ihl + 4) 0 * 256 + packet.getD (ihl + 5) 0 = udp_length)
    (h8 : 8 ≤ udp_length)
    (hfit : ihl + udp_length < packet.length)
    (hacc : packet.getD (ihl + 6) 0 * 256 + packet.getD (ihl + 7) 0 = 0 ∨
      checksum (Ipv4Addr.octets ⟨packet.getD 12 0, packet.getD 13 0, packet.getD 14 0, packet.getD 15 0⟩
        ++ Ipv4Addr.octets ⟨packet.getD 16 0, packet.getD 17 0, packet.getD 18 0, packet.getD 19 0⟩
        ++ [0, 17] ++ be16 udp_length ++ subslice packet ihl (ihl + udp_length)) = 0) :
    parse_ipv4_udp_packet packet =
      ParseResult.ok
        ⟨packet.getD 12 0, packet.getD 13 0, packet.getD 14 0, packet.getD 15 0⟩
        ⟨packet.getD 16 0, packet.getD 17 0, packet.getD 18 0, packet.getD 19 0⟩
        (packet.getD ihl 0 * 256 + packet.getD (ihl + 1) 0)
        (packet.getD (ihl + 2) 0 * 256 + packet.getD (ihl + 3) 0)
        (subslice packet (ihl + 8) (ihl + udp_length)) := by
  rw [parse_characterization packet ihl udp_length hlen hihl h20 htot hproto hck hudp h8
    (by omega)]
  rcases hacc with h | h
  · rw [if_neg (fun hc => hc.1 h)]
  · rw [if_neg (fun hc => hc.2 h)]

/-- Witness for C10: a 36-byte buffer whose declared UDP length 14 stops 2
bytes short of the buffer end; the two trailing bytes `0xAA 0xBB` are ignored
and the payload is exactly bytes 28–33. -/
theorem parse_ignores_trailing_bytes_witness :
    parse_ipv4_udp_packet
      [0x45, 0x00, 0x00, 0x24, 0x00, 0x00, 0x40, 0x00, 0x40, 0x11, 0xB7, 0x13,
       192, 168, 1, 100, 192, 168, 1, 1,
       0x30, 0x39, 0x00, 0x50, 0x00, 0x0E, 0x00, 0x00,
       72, 101, 108, 108, 111, 33, 0xAA, 0xBB] =
      ParseResult.ok ⟨192, 168, 1, 100⟩ ⟨192, 168, 1, 1⟩ 12345 80 [72, 101, 108, 108, 111, 33] := by
  rw [parse_ignores_trailing_bytes
    [0x45, 0x00, 0x00, 0x24, 0x00, 0x00, 0x40, 0x00, 0x40, 0x11, 0xB7, 0x13,
     192, 168, 1, 100, 192, 168, 1, 1,
     0x30, 0x39, 0x00, 0x50, 0x00, 0x0E, 0x00, 0x00,
     72, 101, 108, 108, 111, 33, 0xAA, 0xBB] 20 14
    (by decide) (by decide) (by decide) (by decide) (by decide) (by decide) (by decide)
    (by decide) (by decide) (Or.inl (by decide))]
  decide

/-! ### Claim C6: truncation rejection -/

/-- Reads through `take` agree with reads of the original list below the cut. -/
theorem getD_take_of_lt (l : List Nat) (n i : Nat) (h : i < n) :
    (l.take n).getD i 0 = l.getD i 0 := by
  unfold List.getD
  rw [List.get?_eq_getElem?, List.get?_eq_getElem?, List.getElem?_take_of_lt h]

/-- C6 (amended): as long as the encoded packet's total length fits the 16-bit
total-length field (`28 + payload length ≤ 65535`), removing any number
`1 ≤ k ≤ length` of trailing bytes makes the decoder reject: either the
truncated buffer is shorter than 28 bytes, or its declared total length no
longer equals the buffer length. -/
theorem truncation_rejected (payload : List Nat) (src_ip dst_ip : Ipv4Addr)
    (src_port dst_port k : Nat)
    (htotal : 28 + payload.length ≤ 65535)
    (hk1 : 1 ≤ k)
    (hk2 : k ≤ (create_ipv4_udp_packet payload src_ip dst_ip src_port dst_port).length) :
    parse_ipv4_udp_packet
      ((create_ipv4_udp_packet payload src_ip dst_ip src_port dst_port).take
        ((create_ipv4_udp_packet payload src_ip dst_ip src_port dst_port).length - k)) =
      ParseResult.none := by
  have hplen := create_length payload src_ip dst_ip src_port dst_port
  have htk : ((create_ipv4_udp_packet payload src_ip dst_ip src_port dst_port).take
      ((create_ipv4_udp_packet payload src_ip dst_ip src_port dst_port).length - k)).length
      = (create_ipv4_udp_packet payload src_ip dst_ip src_port dst_port).length - k := by
    rw [List.length_take]
    omega
  by_cases hm : (create_ipv4_udp_packet payload src_ip dst_ip src_port dst_port).length - k < 28
  · simp only [parse_ipv4_udp_packet]
    rw [if_pos (by rw [htk]; omega)]
  · have h0 : ((create_ipv4_udp_packet payload src_ip dst_ip src_port dst_port).take
        ((create_ipv4_udp_packet payload src_ip dst_ip src_port dst_port).length - k)).getD 0 0
        = 0x45 := by
      rw [getD_take_of_lt _ _ _ (by omega), create_getD0]
    have htot2 : ((create_ipv4_udp_packet payload src_ip dst_ip src_port dst_port).take
          ((create_ipv4_udp_packet payload src_ip dst_ip src_port dst_port).length - k)).getD 2 0 * 256
        + ((create_ipv4_udp_packet payload src_ip dst_ip src_port dst_port).take
          ((create_ipv4_udp_packet payload src_ip dst_ip src_port dst_port).length - k)).getD 3 0
        = 28 + payload.length := by
      rw [getD_take_of_lt _ _ _ (by omega), getD_take_of_lt _ _ _ (by omega),
        create_getD2, create_getD3]
      omega
    simp only [parse_ipv4_udp_packet]
    rw [htk, h0, htot2]
    rw [if_neg (by omega), if_neg (by norm_num), if_pos (by omega)]

/-- Witness for the amended C6 at a concrete packet, truncated by 2 bytes. -/
theorem truncation_rejected_witness :
    parse_ipv4_udp_packet
      ((create_ipv4_udp_packet [1, 2, 3] ⟨10, 0, 0, 1⟩ ⟨10, 0, 0, 2⟩ 7 9).take
        ((create_ipv4_udp_packet [1, 2, 3] ⟨10, 0, 0, 1⟩ ⟨10, 0, 0, 2⟩ 7 9).length - 2)) =
      ParseResult.none :=
  truncation_rejected [1, 2, 3] ⟨10, 0, 0, 1⟩ ⟨10, 0, 0, 2⟩ 7 9 2
    (by decide) (by decide) (by decide)

/-- Counterexample to C6 as stated: for an oversized payload the total-length
field wraps, and removing exactly 65536 trailing bytes leaves a 28-byte buffer
whose wrapped total-length field (28) and wrapped UDP-length field (8) match
the truncated buffer, so the decoder accepts it. -/
theorem truncation_accepts_wrapped_counterexample :
    (create_ipv4_udp_packet (List.replicate 65536 0) ⟨10, 0, 0, 1⟩ ⟨10, 0, 0, 2⟩ 9000 9001).length
      = 65564 ∧
    parse_ipv4_udp_packet
      ((create_ipv4_udp_packet (List.replicate 65536 0) ⟨10, 0, 0, 1⟩ ⟨10, 0, 0, 2⟩ 9000 9001).take
        ((create_ipv4_udp_packet (List.replicate 65536 0) ⟨10, 0, 0, 1⟩ ⟨10, 0, 0, 2⟩ 9000 9001).length
          - 65536)) =
      ParseResult.ok ⟨10, 0, 0, 1⟩ ⟨10, 0, 0, 2⟩ 9000 9001 [] := by
  have hl : (create_ipv4_udp_packet (List.replicate 65536 0) ⟨10, 0, 0, 1⟩ ⟨10, 0, 0, 2⟩ 9000 9001).length
      = 65564 := by
    rw [create_length, List.length_replicate]
  refine ⟨hl, ?_⟩
  rw [hl]
  norm_num
  rw [create_take28, List.length_replicate]
  norm_num
  decide

/-! ### Claim C7: the total-length field -/

/-- C7 (amended): bytes 2–3 of the encoded packet, read big-endian, are
`(20 + 8 + payload length) mod 65536` — the value as narrowed by the `as u16`
cast.  For payloads with `28 + length ≤ 65535` this is exactly
`20 + 8 + payload length`; larger payloads are not rejected or truncated but
encoded with the wrapped-around field value. -/
theorem total_length_field_mod (payload : List Nat) (src_ip dst_ip : Ipv4Addr)
    (src_port dst_port : Nat) :
    (create_ipv4_udp_packet payload src_ip dst_ip src_port dst_port).getD 2 0 * 256
      + (create_ipv4_udp_packet payload src_ip dst_ip src_port dst_port).getD 3 0
      = (28 + payload.length) % 65536 := by
  rw [create_getD2, create_getD3]
  omega

/-- Counterexample to C7 as stated: a payload of 65508 bytes gives a true total
length of 65536; the packet is emitted in full (65536 bytes, neither rejected
nor truncated) while its total-length field reads `65536 % 65536 = 0`. -/
theorem total_length_field_wraps :
    (create_ipv4_udp_packet (List.replicate 65508 0) ⟨10, 0, 0, 1⟩ ⟨10, 0, 0, 2⟩ 1 2).length
      = 65536 ∧
    (create_ipv4_udp_packet (List.replicate 65508 0) ⟨10, 0, 0, 1⟩ ⟨10, 0, 0, 2⟩ 1 2).getD 2 0 * 256
      + (create_ipv4_udp_packet (List.replicate 65508 0) ⟨10, 0, 0, 1⟩ ⟨10, 0, 0, 2⟩ 1 2).getD 3 0
      = 0 := by
  constructor
  · rw [create_length, List.length_replicate]
  · rw [create_getD2, create_getD3, List.length_replicate]

/-! ### Claim C2: control-channel handling in the poll loop -/

/-- When the control descriptor (index `n + 1`) polls input-ready or hung up,
the scan from any position `j ≤ n + 1` ends the cycle in `break 'm`: every
branch either recurses towards `n + 1` or is the control branch itself. -/
theorem forward_scan_term (n : Nat) (rev : Nat → PollResult)
    (h : (rev (n + 1)).pollin = true ∨ (rev (n + 1)).pollhup = true) :
    ∀ fuel j, j + fuel = n + 2 → j ≤ n + 1 → (forward_scan n rev j fuel).2 = true := by
  intro fuel
  induction fuel with
  | zero => intro j hj1 hj2; omega
  | succ fuel ih =>
    intro j hj1 hj2
    simp only [forward_scan]
    split
    next hskip =>
      rcases Nat.lt_or_ge j (n + 1) with hlt | hge
      · exact ih (j + 1) (by omega) (by omega)
      · have hj4 : j = n + 1 := by omega
        subst hj4
        rcases h with h | h <;> simp [h] at hskip
    next hready =>
      split
      next hjeq => rfl
      next hjne =>
        split
        next => exact ih (j + 1) (by omega) (by omega)
        next =>
          split
          next hjlt => exact ih (j + 1) (by omega) (by omega)
          next =>
            split
            next hjeq2 => exact ih (j + 1) (by omega) (by omega)
            next => exact ih (j + 1) (by omega) (by omega)

/-- C2 (amended): if the poll results of a cycle show the control channel
input-ready or hung up, the engine terminates in that cycle — it runs no later
cycle, the whole remaining trace being that one cycle's actions — but data
channels that are also ready in the same cycle and precede the control
descriptor in the scan order are still processed first (see the
counterexample): the control channel is checked last, not first. -/
theorem control_ready_terminates_cycle (n fuel : Nat) (revs : Nat → Nat → PollResult)
    (h : (revs 0 (n + 1)).pollin = true ∨ (revs 0 (n + 1)).pollhup = true) :
    (forward_cycle n (revs 0)).2 = true ∧
    forward_loop (fuel + 1) n revs 0 = (forward_cycle n (revs 0)).1 := by
  have ht : (forward_cycle n (revs 0)).2 = true :=
    forward_scan_term n (revs 0) h (n + 2) 0 (by omega) (by omega)
  refine ⟨ht, ?_⟩
  simp only [forward_loop]
  rw [if_pos ht]

/-- Witness for the amended C2: with every descriptor always ready, the run is
exactly the first cycle's trace and that cycle terminates. -/
theorem control_ready_terminates_cycle_witness :
    (forward_cycle 1 (fun _ => PollResult.mk true false)).2 = true ∧
    forward_loop 4 1 (fun _ _ => PollResult.mk true false) 0 =
      (forward_cycle 1 (fun _ => PollResult.mk true false)).1 :=
  control_ready_terminates_cycle 1 3 (fun _ _ => PollResult.mk true false) (Or.inl rfl)

/-- Counterexample to C2 as stated: with `n = 1` local channel, poll results
showing local channel 0 and the control descriptor (index 2) both ready give a
cycle that first forwards the local datagram and only then terminates — the
control channel is reached last in the `for` loop, so a cycle in which it is
ready still processes the other ready channels of that cycle. -/
theorem control_checked_last_counterexample :
    ((fun j => PollResult.mk (j == 0 || j == 2) false) 2).pollin = true ∧
    (forward_cycle 1 (fun j => PollResult.mk (j == 0 || j == 2) false)).1 =
      [EngineAction.localToOutside 0, EngineAction.terminate] ∧
    EngineAction.localToOutside 0 ∈
      (forward_cycle 1 (fun j => PollResult.mk (j == 0 || j == 2) false)).1 := by
  decide

/-! ### Claim C8: the inverted port-pair index -/

/-- Appending one port pair to the sequence: the new entry overwrites the
lookup result exactly when its key matches (it is inserted last). -/
theorem pp2idx_concat (l : List PortPair) (x pp : PortPair) :
    pp2idx (l ++ [x]) pp = if x = pp then some l.length else pp2idx l pp := by
  unfold pp2idx
  rw [List.enum_append, List.foldl_append]
  by_cases hx : x = pp <;> simp [List.enumFrom, hx]

/-- C8: the reverse mapping sends each port pair occurring in the sequence to
the largest index at which it occurs — on a duplicate key the later entry
silently overwrites the earlier routing target — and when the pairs are
pairwise distinct it sends `port_pairs[j]` to `j` for every `j`. -/
theorem pp2idx_last_occurrence_spec (pps : List PortPair) :
    (∀ pp, pp ∈ pps → ∃ j, pp2idx pps pp = some j ∧ j < pps.length ∧
        pps.getD j ⟨0, 0⟩ = pp ∧
        ∀ i, i < pps.length → pps.getD i ⟨0, 0⟩ = pp → i ≤ j) ∧
    (pps.Nodup → ∀ j, j < pps.length → pp2idx pps (pps.getD j ⟨0, 0⟩) = some j) := by
  induction pps using List.reverseRecOn with
  | nil =>
    constructor
    · intro pp hpp
      simp at hpp
    · intro _ j hj
      simp at hj
  | append_singleton l x ih =>
    obtain ⟨ih1, ih2⟩ := ih
    constructor
    · intro pp hpp
      by_cases hx : x = pp
      · refine ⟨l.length, ?_, ?_, ?_, ?_⟩
        · rw [pp2idx_concat, if_pos hx]
        · simp
        · rw [List.getD_append_right _ _ _ _ (le_refl _)]
          simpa using hx
        · intro i hi _
          simp at hi
          omega
      · have hpl : pp ∈ l := by
          rcases List.mem_append.mp hpp with h | h
          · exact h
          · simp at h
            exact absurd h.symm hx
        obtain ⟨j, hj1, hj2, hj3, hj4⟩ := ih1 pp hpl
        refine ⟨j, ?_, ?_, ?_, ?_⟩
        · rw [pp2idx_concat, if_neg hx, hj1]
        · simp
          omega
        · rw [List.getD_append _ _ _ _ hj2]
          exact hj3
        · intro i hi hgi
          simp at hi
          rcases Nat.lt_or_ge i l.length with hil | hil
          · refine hj4 i hil ?_
            rw [List.getD_append _ _ _ _ hil] at hgi
            exact hgi
          · have hieq : i = l.length := by omega
            subst hieq
            rw [List.getD_append_right _ _ _ _ (le_refl _)] at hgi
            simp at hgi
            exact absurd hgi hx
    · intro hnd j hj
      obtain ⟨hndl, _, hdisj⟩ := List.nodup_append.mp hnd
      simp at hj
      rcases Nat.lt_or_ge j l.length with hjl | hjl
      · rw [List.getD_append _ _ _ _ hjl, pp2idx_concat]
        rw [if_neg ?hxne]
        case hxne =>
          intro hxeq
          have hmem : l.getD j ⟨0, 0⟩ ∈ l := by
            rw [List.getD_eq_getElem l _ hjl]
            exact List.getElem_mem hjl
          exact hdisj hmem (by simp [hxeq])
        exact ih2 hndl j hjl
      · have hjeq : j = l.length := by omega
        subst hjeq
        rw [List.getD_append_right _ _ _ _ (le_refl _)]
        simp
        rw [pp2idx_concat, if_pos rfl]

/-- Witness for C8: on a sequence whose first and third entries collide, the
lookup returns the later index 2, which is maximal among the occurrences. -/
theorem pp2idx_last_occurrence_spec_witness :
    ∃ j, pp2idx [⟨1, 2⟩, ⟨3, 4⟩, ⟨1, 2⟩] ⟨1, 2⟩ = some j ∧
      j < ([⟨1, 2⟩, ⟨3, 4⟩, ⟨1, 2⟩] : List PortPair).length ∧
      ([⟨1, 2⟩, ⟨3, 4⟩, ⟨1, 2⟩] : List PortPair).getD j ⟨0, 0⟩ = ⟨1, 2⟩ ∧
      ∀ i, i < ([⟨1, 2⟩, ⟨3, 4⟩, ⟨1, 2⟩] : List PortPair).length →
        ([⟨1, 2⟩, ⟨3, 4⟩, ⟨1, 2⟩] : List PortPair).getD i ⟨0, 0⟩ = ⟨1, 2⟩ → i ≤ j :=
  (pp2idx_last_occurrence_spec [⟨1, 2⟩, ⟨3, 4⟩, ⟨1, 2⟩]).1 ⟨1, 2⟩ (by decide)

/-! ### Claim C9: address-mismatch discard in the outside-to-local direction -/

/-- C9: a datagram from the outside channel that decodes successfully but whose
decoded source address differs from the configured remote address, or whose
decoded destination address differs from the configured local address, is
discarded with a diagnostic (`srcMismatch` or `dstMismatch`): in particular no
payload is sent to any local channel and the loop continues. -/
theorem outside_addr_mismatch_discarded (local_addr remote_addr : Ipv4Addr)
    (port_pairs : List PortPair) (dgram : List Nat)
    (src_ip dst_ip : Ipv4Addr) (src_port dst_port : Nat) (data : List Nat)
    (hparse : parse_ipv4_udp_packet dgram =
      ParseResult.ok src_ip dst_ip src_port dst_port data)
    (hmis : src_ip ≠ remote_addr ∨ dst_ip ≠ local_addr) :
    handleOutside local_addr remote_addr port_pairs dgram = OutsideEffect.srcMismatch ∨
    handleOutside local_addr remote_addr port_pairs dgram = OutsideEffect.dstMismatch := by
  unfold handleOutside
  rw [hparse]
  by_cases hsrc : src_ip = remote_addr
  · have hdst : dst_ip ≠ local_addr := by tauto
    right
    simp [hsrc, hdst]
  · left
    simp [hsrc]

/-- Witness for C9: a well-formed packet whose source address does not match
the configured remote address is discarded as a source mismatch. -/
theorem outside_addr_mismatch_discarded_witness :
    handleOutside ⟨2, 2, 2, 2⟩ ⟨9, 9, 9, 9⟩ []
        (create_ipv4_udp_packet [1, 2, 3] ⟨1, 1, 1, 1⟩ ⟨2, 2, 2, 2⟩ 5 6) =
      OutsideEffect.srcMismatch ∨
    handleOutside ⟨2, 2, 2, 2⟩ ⟨9, 9, 9, 9⟩ []
        (create_ipv4_udp_packet [1, 2, 3] ⟨1, 1, 1, 1⟩ ⟨2, 2, 2, 2⟩ 5 6) =
      OutsideEffect.dstMismatch :=
  outside_addr_mismatch_discarded ⟨2, 2, 2, 2⟩ ⟨9, 9, 9, 9⟩ []
    (create_ipv4_udp_packet [1, 2, 3] ⟨1, 1, 1, 1⟩ ⟨2, 2, 2, 2⟩ 5 6)
    ⟨1, 1, 1, 1⟩ ⟨2, 2, 2, 2⟩ 5 6 [1, 2, 3] (by decide) (Or.inl (by decide))
